import Mathlib

set_option maxHeartbeats 1000000
set_option synthInstance.maxHeartbeats 400000

/-!
Shallow embedding of the coredns-zcash peer-address registry
(src/zcash/address_book.go) together with the Go standard-library string
and IP routines it calls (net.SplitHostPort, net.ParseIP, net.IP.String,
net.JoinHostPort, strconv.ParseUint, strconv.Itoa).

Texts are modelled as `List Char`; Go's `time.Now()` is modelled by an
explicit `now : Nat` argument threaded through every operation that reads
the clock; Go's `nil` IP is the empty list of bytes.
-/

/-! ### Character and digit helpers -/

def digitVal (c : Char) : Nat := c.toNat - 48

def isDigit (c : Char) : Bool := 48 ≤ c.toNat && c.toNat ≤ 57

def isHexLower (c : Char) : Bool := 97 ≤ c.toNat && c.toNat ≤ 102

def isHexUpper (c : Char) : Bool := 65 ≤ c.toNat && c.toNat ≤ 70

def hexVal (c : Char) : Nat :=
  if isDigit c then digitVal c
  else if isHexLower c then c.toNat - 87
  else c.toNat - 55

def digitChar (n : Nat) : Char := Char.ofNat (48 + n)

def hexDigitChar (n : Nat) : Char :=
  if n < 10 then Char.ofNat (48 + n) else Char.ofNat (87 + n)

/-- Decimal rendering, as strconv.Itoa on a non-negative value. -/
def itoaCore : Nat → Nat → List Char → List Char
  | 0, _, acc => acc
  | fuel+1, n, acc =>
    if n < 10 then digitChar n :: acc
    else itoaCore fuel (n / 10) (digitChar (n % 10) :: acc)

def Itoa (n : Nat) : List Char := itoaCore (n + 1) n []

/-- Lowercase hex rendering without leading zeros, as net's appendHex. -/
def xtoaCore : Nat → Nat → List Char → List Char
  | 0, _, acc => acc
  | fuel+1, n, acc =>
    if n < 16 then hexDigitChar n :: acc
    else xtoaCore fuel (n / 16) (hexDigitChar (n % 16) :: acc)

def appendHexChars (n : Nat) : List Char := xtoaCore (n + 1) n []

/-! ### strconv.ParseUint(s, 10, 16) -/

def parseDecCore : List Char → Nat → Option Nat
  | [], n => some n
  | c :: cs, n => if isDigit c then parseDecCore cs (n * 10 + digitVal c) else none

/-- strconv.ParseUint with base 10 and bitSize 16: digits only, value at
most 65535; empty input, any non-digit, or a too-large value is an error. -/
def ParseUint16 (s : List Char) : Option Nat :=
  match s with
  | [] => none
  | _ :: _ =>
    match parseDecCore s 0 with
    | none => none
    | some n => if n ≤ 65535 then some n else none

/-! ### net.SplitHostPort / net.JoinHostPort -/

def lastIndexOfAux : List Char → Char → Nat → Option Nat → Option Nat
  | [], _, _, best => best
  | c :: cs, t, i, best => lastIndexOfAux cs t (i + 1) (if c = t then some i else best)

def lastIndexOf (s : List Char) (c : Char) : Option Nat := lastIndexOfAux s c 0 none

def indexOfAux : List Char → Char → Nat → Option Nat
  | [], _, _ => none
  | c :: cs, t, i => if c = t then some i else indexOfAux cs t (i + 1)

def byteIndex (s : List Char) (c : Char) : Option Nat := indexOfAux s c 0

/-- net.SplitHostPort: the port starts after the last colon; a host that
contains colons must be bracketed; all error returns collapse to none. -/
def SplitHostPort (hostport : List Char) : Option (List Char × List Char) :=
  match lastIndexOf hostport ':' with
  | none => none
  | some i =>
    if hostport.head? = some '[' then
      match byteIndex hostport ']' with
      | none => none
      | some e =>
        if e + 1 = hostport.length then none
        else if e + 1 = i then
          if (hostport.drop 1).contains '[' then none
          else if (hostport.drop (e + 1)).contains ']' then none
          else some ((hostport.drop 1).take (e - 1), hostport.drop (i + 1))
        else none
    else
      if (hostport.take i).contains ':' then none
      else if hostport.contains '[' then none
      else if hostport.contains ']' then none
      else some (hostport.take i, hostport.drop (i + 1))

/-- net.JoinHostPort: brackets the host when it contains a colon. -/
def JoinHostPort (host port : List Char) : List Char :=
  if host.contains ':' then '[' :: (host ++ (']' :: ':' :: port))
  else host ++ (':' :: port)

/-! ### net.ParseIP and net.IP.String -/

/-- net's dtoi: leading decimal digits, value and count consumed; fails on
zero digits or on reaching the 0xFFFFFF cutoff. -/
def dtoiCore : List Char → Nat → Nat → Option (Nat × Nat)
  | [], n, i => if i = 0 then none else some (n, i)
  | c :: cs, n, i =>
    if isDigit c then
      if 16777216 ≤ n * 10 + digitVal c then none
      else dtoiCore cs (n * 10 + digitVal c) (i + 1)
    else if i = 0 then none else some (n, i)

def dtoi (s : List Char) : Option (Nat × Nat) := dtoiCore s 0 0

/-- net's xtoi: leading hex digits, value and count consumed. -/
def xtoiCore : List Char → Nat → Nat → Option (Nat × Nat)
  | [], n, i => if i = 0 then none else some (n, i)
  | c :: cs, n, i =>
    if isDigit c || isHexLower c || isHexUpper c then
      if 16777216 ≤ n * 16 + hexVal c then none
      else xtoiCore cs (n * 16 + hexVal c) (i + 1)
    else if i = 0 then none else some (n, i)

def xtoi (s : List Char) : Option (Nat × Nat) := xtoiCore s 0 0

/-- One dotted-quad octet: at most 255, no extra leading zeros. -/
def parseV4Octet (s : List Char) : Option (Nat × List Char) :=
  match dtoi s with
  | none => none
  | some (n, c) =>
    if 255 < n then none
    else if 1 < c ∧ s.head? = some '0' then none
    else some (n, s.drop c)

/-- The four-octet loop of net's parseIPv4; octets after the first are
preceded by a dot, and the input must be fully consumed. -/
def parseV4Loop : Nat → List Char → List Nat → Option (List Nat)
  | 0, s, acc => if s.isEmpty then some acc.reverse else none
  | k+1, s, acc =>
    match (if acc.isEmpty then some s else
           match s with
           | '.' :: rest => some rest
           | _ => none) with
    | none => none
    | some s2 =>
      match parseV4Octet s2 with
      | none => none
      | some (n, rest) => parseV4Loop k rest (n :: acc)

def v4InV6Prefix : List Nat := [0, 0, 0, 0, 0, 0, 0, 0, 0, 0, 255, 255]

/-- net's parseIPv4, returning the 16-byte IPv4-in-IPv6 form, or the empty
list (Go nil) on failure. -/
def parseIPv4 (s : List Char) : List Nat :=
  match parseV4Loop 4 s [] with
  | none => []
  | some bs => v4InV6Prefix ++ bs

/-- The group-reading loop of net's parseIPv6. Returns the bytes read so
far, the ellipsis position if any, and the unconsumed input. -/
def parseV6Loop : Nat → List Char → List Nat → Option Nat → Option (List Nat × Option Nat × List Char)
  | 0, s, acc, ell => some (acc, ell, s)
  | fuel+1, s, acc, ell =>
    if 16 ≤ acc.length then some (acc, ell, s)
    else
      match xtoi s with
      | none => none
      | some (n, c) =>
        if 65535 < n then none
        else if (s.drop c).head? = some '.' then
          if ell = none ∧ acc.length ≠ 12 then none
          else if 16 < acc.length + 4 then none
          else
            match parseV4Loop 4 s [] with
            | none => none
            | some bs => some (acc ++ bs, ell, [])
        else
          match s.drop c with
          | [] => some (acc ++ [n / 256, n % 256], ell, [])
          | d :: rest =>
            if d ≠ ':' ∨ rest = [] then none
            else if rest.head? = some ':' then
              if ell ≠ none then none
              else if rest.drop 1 = [] then
                some (acc ++ [n / 256, n % 256], some (acc.length + 2), [])
              else parseV6Loop fuel (rest.drop 1) (acc ++ [n / 256, n % 256]) (some (acc.length + 2))
            else parseV6Loop fuel rest (acc ++ [n / 256, n % 256]) ell

/-- The tail of net's parseIPv6: reject leftover input, expand the
ellipsis to the missing zero bytes, reject a redundant ellipsis. -/
def finishV6 (acc : List Nat) (ell : Option Nat) (leftover : List Char) : List Nat :=
  if leftover.isEmpty then
    if acc.length < 16 then
      match ell with
      | none => []
      | some e => acc.take e ++ List.replicate (16 - acc.length) 0 ++ acc.drop e
    else
      match ell with
      | none => acc
      | some _ => []
  else []

/-- net's parseIPv6 (zoneless, as modern ParseIP). -/
def parseIPv6 (s : List Char) : List Nat :=
  match s with
  | ':' :: ':' :: rest =>
    if rest.isEmpty then List.replicate 16 0
    else
      match parseV6Loop 16 rest [] (some 0) with
      | none => []
      | some (acc, ell, leftover) => finishV6 acc ell leftover
  | _ =>
    match parseV6Loop 16 s [] none with
    | none => []
    | some (acc, ell, leftover) => finishV6 acc ell leftover

def parseIPScan : List Char → List Char → List Nat
  | _, [] => []
  | orig, c :: cs =>
    if c = '.' then parseIPv4 orig
    else if c = ':' then parseIPv6 orig
    else parseIPScan orig cs

/-- net.ParseIP: scans for the first dot or colon to pick the v4 or v6
parser; returns the empty list (Go nil) when neither occurs or the chosen
parser fails. -/
def ParseIP (s : List Char) : List Nat := parseIPScan s s

/-- net.IP.To4: a 4-byte address, or a 16-byte one with the
IPv4-in-IPv6 prefix; empty list otherwise. -/
def To4 (ip : List Nat) : List Nat :=
  if ip.length = 4 then ip
  else if ip.length = 16 ∧ ip.take 12 = v4InV6Prefix then ip.drop 12
  else []

def hexString : List Nat → List Char
  | [] => []
  | b :: rest => hexDigitChar (b / 16 % 16) :: hexDigitChar (b % 16) :: hexString rest

def toGroups : List Nat → List Nat
  | a :: b :: rest => (a * 256 + b) :: toGroups rest
  | _ => []

def leadZeroGroups : List Nat → Nat
  | 0 :: gs => leadZeroGroups gs + 1
  | _ => 0

/-- Scan for the first longest run of zero 16-bit groups, as the e0/e1
loop of net.IP.String; a later run must be strictly longer to win. -/
def bestZeroRun : Nat → List Nat → Nat → Option (Nat × Nat) → Option (Nat × Nat)
  | 0, _, _, best => best
  | _+1, [], _, best => best
  | fuel+1, g :: gs, idx, best =>
    if 0 < leadZeroGroups (g :: gs) ∧
       (match best with
        | none => 0
        | some (_, br) => br) < leadZeroGroups (g :: gs) then
      bestZeroRun fuel ((g :: gs).drop (leadZeroGroups (g :: gs)))
        (idx + leadZeroGroups (g :: gs)) (some (idx, leadZeroGroups (g :: gs)))
    else bestZeroRun fuel gs (idx + 1) best

/-- A run of a single zero group is not compressed. -/
def pickZeroRun (gs : List Nat) : Option (Nat × Nat) :=
  match bestZeroRun 8 gs 0 none with
  | none => none
  | some (st, r) => if r ≤ 1 then none else some (st, r)

def groupAt (gs : List Nat) (i : Nat) : Nat := gs.getD i 0

/-- The rendering loop of net.IP.String over 16-bit groups, writing the
double colon at the chosen zero run. -/
def v6StringLoop : Nat → List Nat → Option (Nat × Nat) → Nat → List Char
  | 0, _, _, _ => []
  | fuel+1, gs, e, i =>
    if 8 ≤ i then []
    else
      match e with
      | some (e0, r) =>
        if i = e0 then
          if 8 ≤ e0 + r then [':', ':']
          else ':' :: ':' :: (appendHexChars (groupAt gs (e0 + r)) ++ v6StringLoop fuel gs e (e0 + r + 1))
        else
          (if i = 0 then [] else [':']) ++ appendHexChars (groupAt gs i) ++ v6StringLoop fuel gs e (i + 1)
      | none =>
        (if i = 0 then [] else [':']) ++ appendHexChars (groupAt gs i) ++ v6StringLoop fuel gs e (i + 1)

/-- net.IP.String: the nil IP renders as the five characters of the angle
bracketed nil marker; four-byte forms render as a dotted quad; other
sixteen-byte values render as compressed lowercase IPv6; anything else is
a question mark plus raw hex. -/
def ipString (ip : List Nat) : List Char :=
  if ip.isEmpty then ['<', 'n', 'i', 'l', '>']
  else
    if (To4 ip).length = 4 then
      Itoa ((To4 ip).getD 0 0) ++ '.' :: Itoa ((To4 ip).getD 1 0) ++
        '.' :: Itoa ((To4 ip).getD 2 0) ++ '.' :: Itoa ((To4 ip).getD 3 0)
    else if ip.length ≠ 16 then '?' :: hexString ip
    else v6StringLoop 16 (toGroups ip) (pickZeroRun (toGroups ip)) 0

/-! ### wire.NetAddress and Address (src/zcash/address_book.go) -/

/-- wire.NetAddress: timestamp (seconds), service flags, IP bytes (empty
list models Go's nil IP), port. -/
structure NetAddress where
  timestamp : Nat
  services : Nat
  ip : List Nat
  port : Nat
deriving DecidableEq

structure Address where
  netaddr : NetAddress
  blacklisted : Bool
  lastUpdate : Nat
deriving DecidableEq

abbrev PeerKey := List Char

/-- Address.String: JoinHostPort of the rendered IP and the decimal port. -/
def Address.String (a : Address) : List Char :=
  JoinHostPort (ipString a.netaddr.ip) (Itoa a.netaddr.port)

/-- Address.asPeerKey. -/
def Address.asPeerKey (a : Address) : PeerKey := a.String

/-- Address.fromPeerKey: SplitHostPort, then ParseUint(port, 10, 16), then
builds a NetAddress with the current time, zero services, the unchecked
ParseIP result, and the parsed port; blacklisted is reset and lastUpdate is
the new NetAddress timestamp. -/
def Address.fromPeerKey (now : Nat) (s : PeerKey) : Option Address :=
  match SplitHostPort s with
  | none => none
  | some (host, portString) =>
    match ParseUint16 portString with
    | none => none
    | some portInt =>
      some { netaddr := { timestamp := now, services := 0, ip := ParseIP host, port := portInt },
             blacklisted := false,
             lastUpdate := now }

/-- Address.asNetAddress: a value copy of the stored NetAddress with its
timestamp overwritten by lastUpdate. -/
def Address.asNetAddress (a : Address) : NetAddress :=
  { a.netaddr with timestamp := a.lastUpdate }

/-- Address.fromNetAddress: adopts the NetAddress, resets blacklisted,
takes lastUpdate from the address timestamp (the error is always nil). -/
def Address.fromNetAddress (na : NetAddress) : Address :=
  { netaddr := na, blacklisted := false, lastUpdate := na.timestamp }

/-- Address.MarshalText: the rendered text and a nil error. -/
def Address.MarshalText (a : Address) : List Char × Option (List Char) :=
  (a.String, none)

/-! ### AddressBook (the Go map modelled as an association list) -/

def mapLookup : List (PeerKey × Address) → PeerKey → Option Address
  | [], _ => none
  | (k, a) :: rest, s => if k = s then some a else mapLookup rest s

def mapInsert : List (PeerKey × Address) → PeerKey → Address → List (PeerKey × Address)
  | [], s, a => [(s, a)]
  | (k, b) :: rest, s, a =>
    if k = s then (k, a) :: rest else (k, b) :: mapInsert rest s a

def mapErase : List (PeerKey × Address) → PeerKey → List (PeerKey × Address)
  | [], _ => []
  | (k, b) :: rest, s => if k = s then rest else (k, b) :: mapErase rest s

structure AddressBook where
  addrs : List (PeerKey × Address)
deriving DecidableEq

def NewAddressBook : AddressBook := ⟨[]⟩

/-- AddressBook.Add: parse, silently drop parse failures, otherwise store
the fresh record under the given key text (then broadcast to waiters). -/
def AddressBook.Add (bk : AddressBook) (now : Nat) (s : PeerKey) : AddressBook :=
  match Address.fromPeerKey now s with
  | none => bk
  | some newAddr => ⟨mapInsert bk.addrs s newAddr⟩

/-- AddressBook.Remove: delete the entry if present. -/
def AddressBook.Remove (bk : AddressBook) (s : PeerKey) : AddressBook :=
  ⟨mapErase bk.addrs s⟩

/-- AddressBook.Blacklist: mark a present entry and refresh its
lastUpdate; for an absent key, create a record just to be blacklisted,
silently dropping parse failures. -/
def AddressBook.Blacklist (bk : AddressBook) (now : Nat) (s : PeerKey) : AddressBook :=
  match mapLookup bk.addrs s with
  | some target =>
    ⟨mapInsert bk.addrs s { target with blacklisted := true, lastUpdate := now }⟩
  | none =>
    match Address.fromPeerKey now s with
    | none => bk
    | some addr => ⟨mapInsert bk.addrs s { addr with blacklisted := true }⟩

/-- AddressBook.Touch: refresh lastUpdate of a present entry, do nothing
otherwise. -/
def AddressBook.Touch (bk : AddressBook) (now : Nat) (s : PeerKey) : AddressBook :=
  match mapLookup bk.addrs s with
  | some target => ⟨mapInsert bk.addrs s { target with lastUpdate := now }⟩
  | none => bk

def AddressBook.IsKnown (bk : AddressBook) (s : PeerKey) : Bool :=
  (mapLookup bk.addrs s).isSome

def AddressBook.IsBlacklisted (bk : AddressBook) (s : PeerKey) : Bool :=
  match mapLookup bk.addrs s with
  | some target => target.blacklisted
  | none => false

/-- The entry count read by waitForAddresses' predicate. -/
def AddressBook.addrCount (bk : AddressBook) : Nat := bk.addrs.length

/-- The predicate waitForAddresses blocks on: at least n entries. -/
def AddressBook.waitPredicate (bk : AddressBook) (n : Nat) : Bool :=
  decide (n ≤ bk.addrCount)

/-- Whether a key text would pass fromPeerKey's two parse steps (the
outcome does not depend on the clock). -/
def validKey (s : PeerKey) : Bool :=
  match SplitHostPort s with
  | none => false
  | some (_, p) => (ParseUint16 p).isSome

/-! ### Reachable registry states -/

inductive BookOp where
  | add (now : Nat) (s : PeerKey)
  | remove (s : PeerKey)
  | blacklist (now : Nat) (s : PeerKey)
  | touch (now : Nat) (s : PeerKey)
deriving DecidableEq

def applyOp (bk : AddressBook) : BookOp → AddressBook
  | .add now s => bk.Add now s
  | .remove s => bk.Remove s
  | .blacklist now s => bk.Blacklist now s
  | .touch now s => bk.Touch now s

/-- The state after a sequence of operations on a fresh book. -/
def runOps (ops : List BookOp) : AddressBook := ops.foldl applyOp NewAddressBook

/-- Every key that is present in the book passes the parse steps. -/
def keysValid (bk : AddressBook) : Prop :=
  ∀ k, (mapLookup bk.addrs k).isSome = true → validKey k = true

/-! ### Association-list lemmas -/

theorem mapLookup_mapInsert (l : List (PeerKey × Address)) (s : PeerKey) (a : Address)
    (k : PeerKey) :
    mapLookup (mapInsert l s a) k = if k = s then some a else mapLookup l k := by
  induction l with
  | nil =>
    by_cases h : k = s
    · subst h; simp [mapInsert, mapLookup]
    · simp [mapInsert, mapLookup, h, Ne.symm h]
  | cons hd tl ih =>
    obtain ⟨k0, b⟩ := hd
    by_cases h : k0 = s
    · subst h
      by_cases h2 : k = k0
      · subst h2; simp [mapInsert, mapLookup]
      · simp [mapInsert, mapLookup, h2, Ne.symm h2]
    · by_cases h2 : k0 = k
      · subst h2
        simp [mapInsert, mapLookup, h, Ne.symm h]
      · simp [mapInsert, mapLookup, h, h2, ih]

theorem mapLookup_eq_none_iff (l : List (PeerKey × Address)) (s : PeerKey) :
    mapLookup l s = none ↔ s ∉ l.map Prod.fst := by
  induction l with
  | nil => simp [mapLookup]
  | cons hd tl ih =>
    obtain ⟨k, b⟩ := hd
    by_cases h : k = s
    · subst h; simp [mapLookup]
    · simp [mapLookup, h, ih, Ne.symm h]

theorem mapInsert_keys (l : List (PeerKey × Address)) (s : PeerKey) (a : Address) :
    (mapInsert l s a).map Prod.fst =
      if (mapLookup l s).isSome then l.map Prod.fst else l.map Prod.fst ++ [s] := by
  induction l with
  | nil => simp [mapInsert, mapLookup]
  | cons hd tl ih =>
    obtain ⟨k, b⟩ := hd
    by_cases h : k = s
    · subst h; simp [mapInsert, mapLookup]
    · by_cases h2 : (mapLookup tl s).isSome
      · simp [mapInsert, mapLookup, h, ih, h2]
      · simp [mapInsert, mapLookup, h, ih, h2]

theorem mapInsert_length (l : List (PeerKey × Address)) (s : PeerKey) (a : Address) :
    (mapInsert l s a).length =
      if (mapLookup l s).isSome then l.length else l.length + 1 := by
  have h := congrArg List.length (mapInsert_keys l s a)
  simp only [List.length_map] at h
  by_cases h2 : (mapLookup l s).isSome
  · simpa [h2] using h
  · simpa [h2] using h

theorem mapErase_length_le (l : List (PeerKey × Address)) (s : PeerKey) :
    (mapErase l s).length ≤ l.length := by
  induction l with
  | nil => simp [mapErase]
  | cons hd tl ih =>
    obtain ⟨k, b⟩ := hd
    by_cases h : k = s
    · simp only [mapErase, if_pos h, List.length_cons]
      exact Nat.le_succ _
    · simp only [mapErase, if_neg h, List.length_cons]
      exact Nat.succ_le_succ ih

theorem mapErase_keys_sublist (l : List (PeerKey × Address)) (s : PeerKey) :
    ((mapErase l s).map Prod.fst).Sublist (l.map Prod.fst) := by
  induction l with
  | nil => simp [mapErase]
  | cons hd tl ih =>
    obtain ⟨k, b⟩ := hd
    by_cases h : k = s
    · simp only [mapErase, if_pos h, List.map_cons]
      exact (List.Sublist.refl _).cons _
    · simp only [mapErase, if_neg h, List.map_cons]
      exact ih.cons₂ _

theorem mapLookup_mapErase_isSome (l : List (PeerKey × Address)) (s k : PeerKey)
    (h : (mapLookup (mapErase l s) k).isSome = true) :
    (mapLookup l k).isSome = true := by
  induction l with
  | nil => simp [mapErase, mapLookup] at h
  | cons hd tl ih =>
    obtain ⟨k0, b⟩ := hd
    by_cases h2 : k0 = k
    · simp [mapLookup, h2]
    · by_cases h1 : k0 = s
      · simp only [mapErase, if_pos h1] at h
        simp only [mapLookup, if_neg h2]
        exact h
      · simp only [mapErase, if_neg h1] at h
        simp only [mapLookup, if_neg h2] at h ⊢
        exact ih h

/-! ### fromPeerKey lemmas -/

theorem fromPeerKey_isSome (now : Nat) (s : PeerKey) :
    (Address.fromPeerKey now s).isSome = validKey s := by
  rcases h1 : SplitHostPort s with _ | ⟨host, p⟩
  · simp [Address.fromPeerKey, validKey, h1]
  · rcases h2 : ParseUint16 p with _ | n
    · simp [Address.fromPeerKey, validKey, h1, h2]
    · simp [Address.fromPeerKey, validKey, h1, h2]

theorem fromPeerKey_blacklisted (now : Nat) (s : PeerKey) (a : Address)
    (h : Address.fromPeerKey now s = some a) : a.blacklisted = false := by
  rcases h1 : SplitHostPort s with _ | ⟨host, p⟩
  · simp [Address.fromPeerKey, h1] at h
  · rcases h2 : ParseUint16 p with _ | n
    · simp [Address.fromPeerKey, h1, h2] at h
    · simp only [Address.fromPeerKey, h1, h2] at h
      have ha := Option.some.inj h
      subst ha
      rfl

/-! ### Invariants of reachable states -/

theorem keysValid_applyOp (bk : AddressBook) (op : BookOp) (h : keysValid bk) :
    keysValid (applyOp bk op) := by
  cases op with
  | add now s =>
    intro k hk
    rcases hf : Address.fromPeerKey now s with _ | a
    · simp only [applyOp, AddressBook.Add, hf] at hk
      exact h k hk
    · simp only [applyOp, AddressBook.Add, hf, mapLookup_mapInsert] at hk
      by_cases hks : k = s
      · subst hks
        have hv := fromPeerKey_isSome now k
        rw [hf] at hv
        exact hv.symm
      · rw [if_neg hks] at hk
        exact h k hk
  | remove s =>
    intro k hk
    simp only [applyOp, AddressBook.Remove] at hk
    exact h k (mapLookup_mapErase_isSome bk.addrs s k hk)
  | blacklist now s =>
    intro k hk
    rcases hl : mapLookup bk.addrs s with _ | target
    · rcases hf : Address.fromPeerKey now s with _ | a
      · simp only [applyOp, AddressBook.Blacklist, hl, hf] at hk
        exact h k hk
      · simp only [applyOp, AddressBook.Blacklist, hl, hf, mapLookup_mapInsert] at hk
        by_cases hks : k = s
        · subst hks
          have hv := fromPeerKey_isSome now k
          rw [hf] at hv
          exact hv.symm
        · rw [if_neg hks] at hk
          exact h k hk
    · simp only [applyOp, AddressBook.Blacklist, hl, mapLookup_mapInsert] at hk
      by_cases hks : k = s
      · subst hks
        exact h k (by simp [hl])
      · rw [if_neg hks] at hk
        exact h k hk
  | touch now s =>
    intro k hk
    rcases hl : mapLookup bk.addrs s with _ | target
    · simp only [applyOp, AddressBook.Touch, hl] at hk
      exact h k hk
    · simp only [applyOp, AddressBook.Touch, hl, mapLookup_mapInsert] at hk
      by_cases hks : k = s
      · subst hks
        exact h k (by simp [hl])
      · rw [if_neg hks] at hk
        exact h k hk

theorem keysValid_foldl (ops : List BookOp) :
    ∀ bk : AddressBook, keysValid bk → keysValid (List.foldl applyOp bk ops) := by
  induction ops with
  | nil => intro bk h; exact h
  | cons op rest ih =>
    intro bk h
    exact ih (applyOp bk op) (keysValid_applyOp bk op h)

theorem keysValid_runOps (ops : List BookOp) : keysValid (runOps ops) :=
  keysValid_foldl ops NewAddressBook (by intro k hk; simp [NewAddressBook, mapLookup] at hk)

theorem keysNodup_applyOp (bk : AddressBook) (op : BookOp)
    (h : (bk.addrs.map Prod.fst).Nodup) : ((applyOp bk op).addrs.map Prod.fst).Nodup := by
  have hins : ∀ (s : PeerKey) (a : Address), ((mapInsert bk.addrs s a).map Prod.fst).Nodup := by
    intro s a
    rw [mapInsert_keys]
    by_cases h2 : (mapLookup bk.addrs s).isSome
    · rw [if_pos h2]
      exact h
    · rw [if_neg h2]
      have hnot : s ∉ bk.addrs.map Prod.fst := by
        rw [← mapLookup_eq_none_iff]
        exact Option.not_isSome_iff_eq_none.mp h2
      simp [List.nodup_append, h, hnot]
  cases op with
  | add now s =>
    rcases hf : Address.fromPeerKey now s with _ | a
    · simpa only [applyOp, AddressBook.Add, hf] using h
    · simp only [applyOp, AddressBook.Add, hf]
      exact hins s a
  | remove s =>
    simp only [applyOp, AddressBook.Remove]
    exact (mapErase_keys_sublist bk.addrs s).nodup h
  | blacklist now s =>
    rcases hl : mapLookup bk.addrs s with _ | target
    · rcases hf : Address.fromPeerKey now s with _ | a
      · simpa only [applyOp, AddressBook.Blacklist, hl, hf] using h
      · simp only [applyOp, AddressBook.Blacklist, hl, hf]
        exact hins s _
    · simp only [applyOp, AddressBook.Blacklist, hl]
      exact hins s _
  | touch now s =>
    rcases hl : mapLookup bk.addrs s with _ | target
    · simpa only [applyOp, AddressBook.Touch, hl] using h
    · simp only [applyOp, AddressBook.Touch, hl]
      exact hins s _

theorem keysNodup_foldl (ops : List BookOp) :
    ∀ bk : AddressBook, (bk.addrs.map Prod.fst).Nodup →
      ((List.foldl applyOp bk ops).addrs.map Prod.fst).Nodup := by
  induction ops with
  | nil => intro bk h; exact h
  | cons op rest ih =>
    intro bk h
    exact ih (applyOp bk op) (keysNodup_applyOp bk op h)

/-! ### Claims -/

/-- Claim C1 (corrected). The round-trip identity fails as stated: a valid
host:port text with a non-canonical port (extra leading zero), with a host
that is not a parseable IP (rendered as the nil marker), or with a
bracketed IPv4 host, parses successfully but renders back to a different
text. -/
theorem c1_roundtrip_counterexample :
    ((Address.fromPeerKey 0 ("1.2.3.4:080".data)).map Address.String
        = some ("1.2.3.4:80".data)
      ∧ ("1.2.3.4:80".data : List Char) ≠ ("1.2.3.4:080".data))
    ∧ ((Address.fromPeerKey 0 ("256.1.1.1:80".data)).map Address.String
        = some ("<nil>:80".data)
      ∧ ("<nil>:80".data : List Char) ≠ ("256.1.1.1:80".data))
    ∧ ((Address.fromPeerKey 0 ("[1.2.3.4]:80".data)).map Address.String
        = some ("1.2.3.4:80".data)
      ∧ ("1.2.3.4:80".data : List Char) ≠ ("[1.2.3.4]:80".data)) := by
  decide

/-- Claim C1 (amended). Round-trip identity holds for canonical texts: if
t splits into host h and port text p, p parses as a 16-bit unsigned
integer n, h is exactly the rendered form of its ParseIP result, p is the
canonical decimal rendering of n, and t is the canonical join of h and p,
then parsing t with fromPeerKey and rendering with String yields t. -/
theorem c1_roundtrip_canonical (t h p : List Char) (n now : Nat)
    (h1 : SplitHostPort t = some (h, p))
    (h2 : ParseUint16 p = some n)
    (h3 : ipString (ParseIP h) = h)
    (h4 : Itoa n = p)
    (h5 : JoinHostPort h p = t) :
    (Address.fromPeerKey now t).map Address.String = some t := by
  simp [Address.fromPeerKey, h1, h2, Address.String, h3, h4, h5]

/-- Witness for C1 at the canonical text 10.0.0.1:8233. -/
theorem c1_roundtrip_witness :
    (Address.fromPeerKey 0 ("10.0.0.1:8233".data)).map Address.String
      = some ("10.0.0.1:8233".data) :=
  c1_roundtrip_canonical ("10.0.0.1:8233".data) ("10.0.0.1".data) ("8233".data) 8233 0
    (by decide) (by decide) (by decide) (by decide) (by decide)

/-- Claim C2 (corrected). Blacklist of an unknown valid key inserts a new
entry, increasing the entry count: from the empty book it goes from 0 to
1 entries. -/
theorem c2_blacklist_increases_count :
    NewAddressBook.addrCount = 0
    ∧ (NewAddressBook.Blacklist 0 ("1.2.3.4:80".data)).addrCount = 1 := by
  constructor
  · rfl
  · decide

/-- Claim C2 (amended). Remove and Touch never increase the entry count
read by the wait predicate; Blacklist can increase it by at most one (the
insert-new-blacklisted-record path). -/
theorem c2_count_monotone (bk : AddressBook) (now : Nat) (s : PeerKey) :
    (bk.Remove s).addrCount ≤ bk.addrCount
    ∧ (bk.Touch now s).addrCount ≤ bk.addrCount
    ∧ (bk.Blacklist now s).addrCount ≤ bk.addrCount + 1 := by
  refine ⟨?_, ?_, ?_⟩
  · simpa [AddressBook.Remove, AddressBook.addrCount] using mapErase_length_le bk.addrs s
  · rcases hl : mapLookup bk.addrs s with _ | target
    · simp [AddressBook.Touch, hl]
    · simp [AddressBook.Touch, hl, AddressBook.addrCount, mapInsert_length]
  · rcases hl : mapLookup bk.addrs s with _ | target
    · rcases hf : Address.fromPeerKey now s with _ | a
      · simp [AddressBook.Blacklist, hl, hf]
      · simp [AddressBook.Blacklist, hl, hf, AddressBook.addrCount, mapInsert_length]
    · simp [AddressBook.Blacklist, hl, AddressBook.addrCount, mapInsert_length]

/-- Claim C3 (corrected). Two records under the distinct stored key texts
1.2.3.4:080 and 1.2.3.4:80 coexist in a reachable state and both render
to the same canonical text 1.2.3.4:80, so the rendered text is not a
unique identity. -/
theorem c3_render_collision :
    ((mapLookup (runOps [BookOp.add 0 ("1.2.3.4:080".data),
          BookOp.add 0 ("1.2.3.4:80".data)]).addrs ("1.2.3.4:080".data)).map
        Address.asPeerKey = some ("1.2.3.4:80".data))
    ∧ ((mapLookup (runOps [BookOp.add 0 ("1.2.3.4:080".data),
          BookOp.add 0 ("1.2.3.4:80".data)]).addrs ("1.2.3.4:80".data)).map
        Address.asPeerKey = some ("1.2.3.4:80".data))
    ∧ (("1.2.3.4:080".data : List Char) ≠ ("1.2.3.4:80".data)) := by
  decide

/-- Claim C3 (amended). In every reachable registry state the stored key
texts are pairwise distinct: the map from key text to record holds at
most one entry per key text. -/
theorem c3_unique_keys (ops : List BookOp) :
    ((runOps ops).addrs.map Prod.fst).Nodup :=
  keysNodup_foldl ops NewAddressBook (by simp [NewAddressBook])

/-- Claim C4 (confirmed). Blacklist of a present key updates that record
to blacklisted with a fresh lastUpdate; Blacklist of an absent key that
parses inserts a record that is known and blacklisted; Blacklist of an
absent key that does not parse leaves the book unchanged. -/
theorem c4_blacklist_behaviour (bk : AddressBook) (now : Nat) (s : PeerKey) :
    (∀ a, mapLookup bk.addrs s = some a →
      mapLookup (bk.Blacklist now s).addrs s
        = some { a with blacklisted := true, lastUpdate := now })
    ∧ (mapLookup bk.addrs s = none → validKey s = true →
      (bk.Blacklist now s).IsKnown s = true ∧ (bk.Blacklist now s).IsBlacklisted s = true)
    ∧ (mapLookup bk.addrs s = none → validKey s = false → bk.Blacklist now s = bk) := by
  refine ⟨?_, ?_, ?_⟩
  · intro a ha
    simp [AddressBook.Blacklist, ha, mapLookup_mapInsert]
  · intro ha hv
    have hs := fromPeerKey_isSome now s
    rw [hv] at hs
    rcases hf : Address.fromPeerKey now s with _ | a
    · rw [hf] at hs; cases hs
    · constructor
      · simp [AddressBook.IsKnown, AddressBook.Blacklist, ha, hf, mapLookup_mapInsert]
      · simp [AddressBook.IsBlacklisted, AddressBook.Blacklist, ha, hf, mapLookup_mapInsert]
  · intro ha hv
    have hs := fromPeerKey_isSome now s
    rw [hv] at hs
    have hf : Address.fromPeerKey now s = none :=
      Option.not_isSome_iff_eq_none.mp (by simp [hs])
    simp [AddressBook.Blacklist, ha, hf]

/-- Witness for C4: the present, absent-valid and absent-invalid cases at
concrete inputs. -/
theorem c4_blacklist_witness :
    mapLookup ((AddressBook.Blacklist (AddressBook.Add NewAddressBook 0
        ("10.0.0.1:8233".data)) 5 ("10.0.0.1:8233".data)).addrs) ("10.0.0.1:8233".data)
      = some { netaddr := { timestamp := 0, services := 0,
                            ip := ParseIP ("10.0.0.1".data), port := 8233 },
               blacklisted := true, lastUpdate := 5 }
    ∧ ((NewAddressBook.Blacklist 5 ("10.0.0.1:8233".data)).IsKnown ("10.0.0.1:8233".data) = true
       ∧ (NewAddressBook.Blacklist 5 ("10.0.0.1:8233".data)).IsBlacklisted ("10.0.0.1:8233".data) = true)
    ∧ NewAddressBook.Blacklist 5 ("not-an-address".data) = NewAddressBook :=
  ⟨(c4_blacklist_behaviour (AddressBook.Add NewAddressBook 0 ("10.0.0.1:8233".data)) 5
      ("10.0.0.1:8233".data)).1
      { netaddr := { timestamp := 0, services := 0,
                     ip := ParseIP ("10.0.0.1".data), port := 8233 },
        blacklisted := false, lastUpdate := 0 } (by decide),
   (c4_blacklist_behaviour NewAddressBook 5 ("10.0.0.1:8233".data)).2.1 (by decide) (by decide),
   (c4_blacklist_behaviour NewAddressBook 5 ("not-an-address".data)).2.2 (by decide) (by decide)⟩

/-- Claim C5 (confirmed). For a valid key text, Blacklist followed by Add
ends with the key not blacklisted, because Add replaces the record with a
fresh one whose blacklisted flag is false. -/
theorem c5_readd_resets_blacklist (bk : AddressBook) (k : PeerKey) (now1 now2 : Nat)
    (hv : validKey k = true) :
    ((bk.Blacklist now1 k).Add now2 k).IsBlacklisted k = false := by
  have hs := fromPeerKey_isSome now2 k
  rw [hv] at hs
  rcases hf : Address.fromPeerKey now2 k with _ | a
  · rw [hf] at hs; cases hs
  · have hb := fromPeerKey_blacklisted now2 k a hf
    simp [AddressBook.Add, hf, AddressBook.IsBlacklisted, mapLookup_mapInsert, hb]

/-- Witness for C5 at the key 10.0.0.1:8233. -/
theorem c5_readd_witness :
    validKey ("10.0.0.1:8233".data) = true
    ∧ ((NewAddressBook.Blacklist 0 ("10.0.0.1:8233".data)).Add 1
        ("10.0.0.1:8233".data)).IsBlacklisted ("10.0.0.1:8233".data) = false :=
  ⟨by decide,
   c5_readd_resets_blacklist NewAddressBook ("10.0.0.1:8233".data) 0 1 (by decide)⟩

/-- Claim C6 (confirmed). On any text whose parse fails, Add leaves every
reachable registry state unchanged and the key stays unknown; the failure
is absorbed (the embedding is total, so no crash is possible). -/
theorem c6_malformed_add_noop (ops : List BookOp) (s : PeerKey) (now : Nat)
    (hbad : Address.fromPeerKey now s = none) :
    (runOps ops).Add now s = runOps ops
    ∧ ((runOps ops).Add now s).IsKnown s = false := by
  have heq : (runOps ops).Add now s = runOps ops := by
    simp [AddressBook.Add, hbad]
  refine ⟨heq, ?_⟩
  rw [heq]
  have hv : validKey s = false := by
    have hs := fromPeerKey_isSome now s
    rw [hbad] at hs
    exact hs.symm
  simp only [AddressBook.IsKnown]
  rcases hl : mapLookup (runOps ops).addrs s with _ | a
  · rfl
  · have hval := keysValid_runOps ops s (by simp [hl])
    simp [hval] at hv

/-- Witness for C6 at the malformed text not-an-address on the empty
operation sequence. -/
theorem c6_malformed_witness :
    Address.fromPeerKey 0 ("not-an-address".data) = none
    ∧ (runOps []).Add 0 ("not-an-address".data) = runOps []
    ∧ ((runOps []).Add 0 ("not-an-address".data)).IsKnown ("not-an-address".data) = false :=
  ⟨by decide,
   (c6_malformed_add_noop [] ("not-an-address".data) 0 (by decide)).1,
   (c6_malformed_add_noop [] ("not-an-address".data) 0 (by decide)).2⟩

/-- Claim C7 (confirmed). Touch on an absent key leaves the book
unchanged and the key unknown; Touch on a present key rewrites only that
record's lastUpdate and leaves every other key's lookup unchanged. -/
theorem c7_touch_conditional (bk : AddressBook) (k : PeerKey) (now : Nat) :
    (bk.IsKnown k = false → bk.Touch now k = bk ∧ (bk.Touch now k).IsKnown k = false)
    ∧ (∀ a, mapLookup bk.addrs k = some a →
        mapLookup (bk.Touch now k).addrs k = some { a with lastUpdate := now }
        ∧ ∀ k2, k2 ≠ k → mapLookup (bk.Touch now k).addrs k2 = mapLookup bk.addrs k2) := by
  constructor
  · intro hk
    have hl : mapLookup bk.addrs k = none := by
      simp only [AddressBook.IsKnown] at hk
      exact Option.not_isSome_iff_eq_none.mp (by simp [hk])
    constructor
    · simp [AddressBook.Touch, hl]
    · simp [AddressBook.Touch, hl, AddressBook.IsKnown]
  · intro a ha
    constructor
    · simp [AddressBook.Touch, ha, mapLookup_mapInsert]
    · intro k2 hk2
      simp [AddressBook.Touch, ha, mapLookup_mapInsert, hk2]

/-- Witness for C7: the absent case, and the present case with its frame
condition at another key. -/
theorem c7_touch_witness :
    NewAddressBook.Touch 9 ("10.0.0.1:8233".data) = NewAddressBook
    ∧ mapLookup ((AddressBook.Touch (AddressBook.Add NewAddressBook 0
        ("10.0.0.1:8233".data)) 9 ("10.0.0.1:8233".data)).addrs) ("10.0.0.1:8233".data)
      = some { netaddr := { timestamp := 0, services := 0,
                            ip := ParseIP ("10.0.0.1".data), port := 8233 },
               blacklisted := false, lastUpdate := 9 }
    ∧ mapLookup ((AddressBook.Touch (AddressBook.Add NewAddressBook 0
        ("10.0.0.1:8233".data)) 9 ("10.0.0.1:8233".data)).addrs) ("1.2.3.4:80".data)
      = mapLookup (AddressBook.Add NewAddressBook 0 ("10.0.0.1:8233".data)).addrs
          ("1.2.3.4:80".data) :=
  ⟨((c7_touch_conditional NewAddressBook ("10.0.0.1:8233".data) 9).1 (by decide)).1,
   ((c7_touch_conditional (AddressBook.Add NewAddressBook 0 ("10.0.0.1:8233".data))
      ("10.0.0.1:8233".data) 9).2
      { netaddr := { timestamp := 0, services := 0,
                     ip := ParseIP ("10.0.0.1".data), port := 8233 },
        blacklisted := false, lastUpdate := 0 } (by decide)).1,
   ((c7_touch_conditional (AddressBook.Add NewAddressBook 0 ("10.0.0.1:8233".data))
      ("10.0.0.1:8233".data) 9).2
      { netaddr := { timestamp := 0, services := 0,
                     ip := ParseIP ("10.0.0.1".data), port := 8233 },
        blacklisted := false, lastUpdate := 0 } (by decide)).2 ("1.2.3.4:80".data) (by decide)⟩

/-- Claim C8 (confirmed). asNetAddress returns the stored endpoint with
only its timestamp replaced by lastUpdate; IP, port and services are the
stored values, and the conversion is a pure value copy. -/
theorem c8_asNetAddress_fields (a : Address) :
    a.asNetAddress.timestamp = a.lastUpdate
    ∧ a.asNetAddress.ip = a.netaddr.ip
    ∧ a.asNetAddress.port = a.netaddr.port
    ∧ a.asNetAddress.services = a.netaddr.services :=
  ⟨rfl, rfl, rfl, rfl⟩

/-- Claim C9 (confirmed). fromPeerKey succeeds on any host:port-shaped
text with an in-range port, storing the ParseIP result unchecked (it may
be the nil IP), and Add on such a text always inserts the key. -/
theorem c9_host_not_validated (bk : AddressBook) (s host portString : List Char)
    (n now : Nat)
    (h1 : SplitHostPort s = some (host, portString))
    (h2 : ParseUint16 portString = some n) :
    Address.fromPeerKey now s
      = some { netaddr := { timestamp := now, services := 0,
                            ip := ParseIP host, port := n },
               blacklisted := false, lastUpdate := now }
    ∧ (bk.Add now s).IsKnown s = true := by
  constructor
  · simp [Address.fromPeerKey, h1, h2]
  · simp [AddressBook.Add, Address.fromPeerKey, h1, h2, AddressBook.IsKnown,
      mapLookup_mapInsert]

/-- Witness for C9 at localhost:8233, whose host is not a parseable IP:
the stored IP is nil and the record renders with the nil marker. -/
theorem c9_host_witness :
    ParseIP ("localhost".data) = []
    ∧ Address.fromPeerKey 3 ("localhost:8233".data)
      = some { netaddr := { timestamp := 3, services := 0,
                            ip := ParseIP ("localhost".data), port := 8233 },
               blacklisted := false, lastUpdate := 3 }
    ∧ (NewAddressBook.Add 3 ("localhost:8233".data)).IsKnown ("localhost:8233".data) = true
    ∧ (Address.fromPeerKey 3 ("localhost:8233".data)).map Address.String
      = some ("<nil>:8233".data) :=
  ⟨by decide,
   (c9_host_not_validated NewAddressBook ("localhost:8233".data) ("localhost".data)
      ("8233".data) 8233 3 (by decide) (by decide)).1,
   (c9_host_not_validated NewAddressBook ("localhost:8233".data) ("localhost".data)
      ("8233".data) 8233 3 (by decide) (by decide)).2,
   by decide⟩

/-- Claim C10 (confirmed). MarshalText is total and infallible: for every
record it returns the rendered text with a nil error. -/
theorem c10_marshalText_total (a : Address) :
    (Address.MarshalText a).2 = none ∧ (Address.MarshalText a).1 = Address.String a :=
  ⟨rfl, rfl⟩
